import Mathlib

/-!
# Verification of the outbound request orchestration layer

Shallow embedding of the client-side request scheduler of the
polytechnic management client: the rate-limit configuration, the retry
controller with exponential backoff, the response interceptors, the
request queue with its concurrency bound and TTL cache, and the
cache-clearing mutators.  All definitions are translated from the
TypeScript source (the enhanced `src/services/api.ts` holding
`RATE_LIMIT_CONFIG`, `RequestQueue`, `retryRequest` and the axios
interceptors, plus the legacy `src/services/api.ts` holding the 401
handler).  The theorems at the end settle the specification claims.
-/

namespace ApiService

/-- Mirrors the `RATE_LIMIT_CONFIG` object literal. -/
structure RateLimitConfig where
  maxRetries : Nat
  baseDelay : Nat
  maxDelay : Nat
  retryDelayMultiplier : Nat
  maxConcurrentRequests : Nat
  requestTimeout : Nat
deriving DecidableEq

/-- `RATE_LIMIT_CONFIG` from the source: maxRetries 3, baseDelay 1000 ms,
maxDelay 10000 ms, multiplier 2, 5 concurrent requests, 30 s timeout. -/
def RATE_LIMIT_CONFIG : RateLimitConfig :=
  { maxRetries := 3
    baseDelay := 1000
    maxDelay := 10000
    retryDelayMultiplier := 2
    maxConcurrentRequests := 5
    requestTimeout := 30000 }

/-- A raw axios failure as seen by the response interceptor:
`error.response?.status` (absent on connection failures and timeouts) and
the parsed `Retry-After` response header in seconds, when present. -/
structure RawAxiosError where
  status : Option Nat
  retryAfterHeader : Option Nat
deriving DecidableEq

/-- The error object the response interceptor rejects with, as observed by
`retryRequest`: `responseStatus` models `error?.response?.status` on the
rejected object, `isRateLimited` and `retryAfter` model the extra fields the
429 branch attaches to the fresh `Error` it builds. -/
structure InterceptedError where
  responseStatus : Option Nat
  isRateLimited : Bool
  retryAfter : Option Nat
deriving DecidableEq

/-- The 429 branch of `api.interceptors.response.use`: a 429 response is
replaced by a new `Error` carrying `isRateLimited` and
`retryAfter = parseInt(header) * 1000` (else `baseDelay`).  The new `Error`
has no `response` field, so its `responseStatus` is `none`.  Every other
failure is rejected unchanged (the `status >= 400` branch only logs). -/
def responseInterceptor (e : RawAxiosError) : InterceptedError :=
  if e.status = some 429 then
    { responseStatus := none
      isRateLimited := true
      retryAfter := some (match e.retryAfterHeader with
        | some secs => secs * 1000
        | none => RATE_LIMIT_CONFIG.baseDelay) }
  else
    { responseStatus := e.status, isRateLimited := false, retryAfter := none }

/-- `error?.response?.status === 429` (in JS, `undefined === 429` is false). -/
def statusIs429 : Option Nat → Bool
  | some s => s == 429
  | none => false

/-- `error?.response?.status >= 500` (in JS, `undefined >= 500` is false). -/
def statusGe500 : Option Nat → Bool
  | some s => decide (500 ≤ s)
  | none => false

/-- The retry predicate of `retryRequest`:
`(isRateLimited || isServerError) && retryCount < maxRetries`. -/
def shouldRetry (e : InterceptedError) (retryCount : Nat) : Bool :=
  (statusIs429 e.responseStatus || statusGe500 e.responseStatus)
    && decide (retryCount < RATE_LIMIT_CONFIG.maxRetries)

/-- The backoff delay of `retryRequest`:
`min(baseDelay * retryDelayMultiplier ** retryCount, maxDelay)`. -/
def computeDelay (retryCount : Nat) : Nat :=
  min (RATE_LIMIT_CONFIG.baseDelay * RATE_LIMIT_CONFIG.retryDelayMultiplier ^ retryCount)
    RATE_LIMIT_CONFIG.maxDelay

/-- The recursive core of `retryRequest`. `attempts n` is the outcome of the
`(n+1)`-th invocation of `requestFn`.  Returns the final outcome together
with the list of backoff delays slept through (one entry per retry), so the
result also records how many attempts were made (`delays.length + 1`). -/
def retryRequestAux {α : Type} (attempts : Nat → Except InterceptedError α)
    (retryCount : Nat) : Except InterceptedError α × List Nat :=
  match attempts retryCount with
  | Except.ok v => (Except.ok v, [])
  | Except.error e =>
    if h : shouldRetry e retryCount then
      ((retryRequestAux attempts (retryCount + 1)).1,
        computeDelay retryCount :: (retryRequestAux attempts (retryCount + 1)).2)
    else
      (Except.error e, [])
termination_by RATE_LIMIT_CONFIG.maxRetries - retryCount
decreasing_by
  all_goals
    simp only [shouldRetry, Bool.and_eq_true, decide_eq_true_eq] at h
    omega

/-- `retryRequest(requestFn)`: the outcome delivered to the caller. -/
def retryRequest {α : Type} (attempts : Nat → Except InterceptedError α) :
    Except InterceptedError α :=
  (retryRequestAux attempts 0).1

/-- The sequence of backoff delays slept through by `retryRequest`. -/
def retryDelays {α : Type} (attempts : Nat → Except InterceptedError α) : List Nat :=
  (retryRequestAux attempts 0).2

/-- Total number of invocations of `requestFn` made by `retryRequest`. -/
def retryAttemptCount {α : Type} (attempts : Nat → Except InterceptedError α) : Nat :=
  (retryRequestAux attempts 0).2.length + 1

/-- The external collaborators touched by the legacy 401 handler: the
persisted credential store (`localStorage` keys `token` and `user`) and the
navigation log (`window.location.href` assignments). -/
structure BrowserState where
  token : Option String
  user : Option String
  redirects : List String
deriving DecidableEq

/-- The legacy response interceptor (`src/services/api.ts`): on a 401 it
removes `token` and `user` from the credential store and assigns
`window.location.href = '/login'` exactly once; in every case the original
error is rejected unchanged to the caller. -/
def legacyResponseInterceptor (st : BrowserState) (e : RawAxiosError) :
    BrowserState × RawAxiosError :=
  if e.status = some 401 then
    ({ token := none, user := none, redirects := st.redirects ++ ["/login"] }, e)
  else
    (st, e)

/-- A unit of work given to `RequestQueue.add`: `requestFn` (whose eventual
successful value is `value`), the optional `cacheKey`, and the `ttl`
(default 300000 ms in the source).  `id` identifies the submission in the
observation logs. -/
structure Task where
  id : Nat
  cacheKey : Option String
  ttl : Nat
  value : Nat
deriving DecidableEq

/-- One entry of `requestCache`: `{ data, timestamp, ttl }`. -/
structure CacheEntry where
  data : Nat
  timestamp : Nat
  ttl : Nat
deriving DecidableEq

/-- `requestCache.get(key)` on the association-list model of the `Map`. -/
def cacheGet (m : List (String × CacheEntry)) (k : String) : Option CacheEntry :=
  match m with
  | [] => none
  | (k1, v) :: rest => if k1 = k then some v else cacheGet rest k

/-- `requestCache.set(key, entry)`: unconditionally overwrites the entry for
`key`, keeping at most one entry per key. -/
def cacheSet (m : List (String × CacheEntry)) (k : String) (v : CacheEntry) :
    List (String × CacheEntry) :=
  match m with
  | [] => [(k, v)]
  | (k1, v1) :: rest => if k1 = k then (k, v) :: rest else (k1, v1) :: cacheSet rest k v

/-- The state of the module-level `RequestQueue` singleton between
suspension points of the single-threaded event loop.  `queue` is the FIFO
backlog, `active` the logically in-flight tasks (`activeRequests` is its
length), `cache` the `requestCache`, `now` the `Date.now()` clock.
`started`, `completed` and `enqueued` are observation logs recording,
respectively, each invocation of a dequeued thunk (which increments
`activeRequests`), each `finally` block (which decrements it), and each
`queue.push`; they do not influence control flow. -/
structure SchedState where
  queue : List Task
  active : List Task
  cache : List (String × CacheEntry)
  now : Nat
  started : List Nat
  completed : List Nat
  enqueued : List Nat
deriving DecidableEq

/-- Invoking `this.queue.shift()` and running the thunk up to its first
suspension point: the thunk does `this.activeRequests++` and calls
`requestFn`, so the head task moves from the backlog into `active`. -/
def startNext (s : SchedState) : SchedState :=
  match s.queue with
  | [] => s
  | t :: rest =>
    { s with queue := rest, active := s.active ++ [t], started := s.started ++ [t.id] }

/-- `processQueue()`: pops and starts at most one backlog entry, and only
while `activeRequests < maxConcurrentRequests`. -/
def processQueue (s : SchedState) : SchedState :=
  if s.active.length < RATE_LIMIT_CONFIG.maxConcurrentRequests ∧ s.queue.length > 0 then
    startNext s
  else s

/-- The tail of `RequestQueue.add` on a cache miss: `this.queue.push(...)`
followed by `this.processQueue()`. -/
def enqueue (s : SchedState) (t : Task) : SchedState :=
  processQueue { s with queue := s.queue ++ [t], enqueued := s.enqueued ++ [t.id] }

/-- `RequestQueue.add(requestFn, cacheKey, ttl)`: consult the cache first
and resolve immediately with the cached data while
`Date.now() - cached.timestamp < cached.ttl`; otherwise push the task and
invoke `processQueue`.  The second component is the immediately resolved
value (`none` when the task was queued instead). -/
def add (s : SchedState) (t : Task) : SchedState × Option Nat :=
  match t.cacheKey with
  | some k =>
    match cacheGet s.cache k with
    | some cached =>
      if s.now - cached.timestamp < cached.ttl then (s, some cached.data)
      else (enqueue s t, none)
    | none => (enqueue s t, none)
  | none => (enqueue s t, none)

/-- Linear search of `active` for the task with the given id. -/
def findTask (l : List Task) (id : Nat) : Option Task :=
  match l with
  | [] => none
  | t :: rest => if t.id = id then some t else findTask rest id

/-- Removal of the completed task from `active`. -/
def removeTask (l : List Task) (id : Nat) : List Task :=
  match l with
  | [] => []
  | t :: rest => if t.id = id then rest else t :: removeTask rest id

/-- Settlement of a running thunk: on success the result is written to the
cache under the task's key (`{data: result, timestamp: Date.now(), ttl}`),
then the `finally` block runs `this.activeRequests--` and
`this.processQueue()`.  A failed thunk writes nothing to the cache but runs
the same `finally` block. -/
def completeTask (s : SchedState) (id : Nat) (success : Bool) : SchedState :=
  match findTask s.active id with
  | none => s
  | some t =>
    processQueue
      { s with
          active := removeTask s.active id
          cache :=
            if success then
              match t.cacheKey with
              | some k => cacheSet s.cache k { data := t.value, timestamp := s.now, ttl := t.ttl }
              | none => s.cache
            else s.cache
          completed := s.completed ++ [id] }

/-- `RequestQueue.clearCache()`: `this.requestCache.clear()`. -/
def clearCache (s : SchedState) : SchedState :=
  { s with cache := [] }

/-- A mutating API call, mirroring `studentAPI.create`, `studentAPI.update`
and `studentAPI.delete` (and every other mutator in the file):
`requestQueue.clearCache()` runs synchronously first, then
`createApiRequest` submits the request with no cache key. -/
def mutatingCall (s : SchedState) (t : Task) : SchedState × Option Nat :=
  add (clearCache s) t

/-- The externally visible events of the scheduler: a submission through
`add`, the settlement of an in-flight task, the passage of wall-clock time,
and an external `clearCache()` call. -/
inductive Event where
  | submit (t : Task)
  | complete (id : Nat) (success : Bool)
  | tick (d : Nat)
  | clearCache

/-- One atomic segment of the single-threaded event loop. -/
def stepEvent (s : SchedState) : Event → SchedState
  | Event.submit t => (add s t).1
  | Event.complete id success => completeTask s id success
  | Event.tick d => { s with now := s.now + d }
  | Event.clearCache => clearCache s

/-- The freshly constructed module-level `RequestQueue`. -/
def initState : SchedState :=
  { queue := [], active := [], cache := [], now := 0
    started := [], completed := [], enqueued := [] }

/-- The scheduler state after an arbitrary interleaving of events. -/
def run (evs : List Event) : SchedState :=
  evs.foldl stepEvent initState

/-- A drain loop that pops while a slot is free and the backlog is
non-empty — the alternative formulation claim C10 compares against. -/
def processQueueLoop (s : SchedState) : SchedState :=
  if h : s.active.length < RATE_LIMIT_CONFIG.maxConcurrentRequests ∧ s.queue.length > 0 then
    processQueueLoop (startNext s)
  else s
termination_by s.queue.length
decreasing_by
  cases hq : s.queue with
  | nil => rw [hq] at h; simp at h
  | cons q qs => simp [startNext, hq]

/-- `enqueue` with the drain loop in place of the single-pop drain. -/
def enqueueLoop (s : SchedState) (t : Task) : SchedState :=
  processQueueLoop { s with queue := s.queue ++ [t], enqueued := s.enqueued ++ [t.id] }

/-- `add` with the drain loop in place of the single-pop drain. -/
def addLoop (s : SchedState) (t : Task) : SchedState × Option Nat :=
  match t.cacheKey with
  | some k =>
    match cacheGet s.cache k with
    | some cached =>
      if s.now - cached.timestamp < cached.ttl then (s, some cached.data)
      else (enqueueLoop s t, none)
    | none => (enqueueLoop s t, none)
  | none => (enqueueLoop s t, none)

/-- `completeTask` with the drain loop in place of the single-pop drain. -/
def completeTaskLoop (s : SchedState) (id : Nat) (success : Bool) : SchedState :=
  match findTask s.active id with
  | none => s
  | some t =>
    processQueueLoop
      { s with
          active := removeTask s.active id
          cache :=
            if success then
              match t.cacheKey with
              | some k => cacheSet s.cache k { data := t.value, timestamp := s.now, ttl := t.ttl }
              | none => s.cache
            else s.cache
          completed := s.completed ++ [id] }

/-- `stepEvent` with the drain loop in place of the single-pop drain. -/
def stepEventLoop (s : SchedState) : Event → SchedState
  | Event.submit t => (addLoop s t).1
  | Event.complete id success => completeTaskLoop s id success
  | Event.tick d => { s with now := s.now + d }
  | Event.clearCache => clearCache s

/-- The scheduler run under the drain-loop semantics. -/
def runLoop (evs : List Event) : SchedState :=
  evs.foldl stepEventLoop initState

/-- The inductive invariant of every reachable scheduler state: the
concurrency bound, the bookkeeping balance (every start incremented the
counter once, every completion decremented it once), backlog non-emptiness
forcing a full set of slots, and the FIFO trace equation (the start order
extended by the current backlog is exactly the submission order of queued
tasks). -/
def Inv (s : SchedState) : Prop :=
  s.active.length ≤ RATE_LIMIT_CONFIG.maxConcurrentRequests
  ∧ s.started.length = s.active.length + s.completed.length
  ∧ (s.queue ≠ [] → s.active.length = RATE_LIMIT_CONFIG.maxConcurrentRequests)
  ∧ s.started ++ s.queue.map Task.id = s.enqueued

/-! ## Unfolding lemmas for the retry controller -/

theorem retry_step_ok {α : Type} (attempts : Nat → Except InterceptedError α) (n : Nat)
    (v : α) (he : attempts n = Except.ok v) :
    retryRequestAux attempts n = (Except.ok v, []) := by
  rw [retryRequestAux.eq_def, he]

theorem retry_step_stop {α : Type} (attempts : Nat → Except InterceptedError α) (n : Nat)
    (e : InterceptedError) (he : attempts n = Except.error e)
    (hr : shouldRetry e n = false) :
    retryRequestAux attempts n = (Except.error e, []) := by
  rw [retryRequestAux.eq_def, he]
  simp [hr]

theorem retry_step_retry {α : Type} (attempts : Nat → Except InterceptedError α) (n : Nat)
    (e : InterceptedError) (he : attempts n = Except.error e)
    (hr : shouldRetry e n = true) :
    retryRequestAux attempts n =
      ((retryRequestAux attempts (n + 1)).1,
        computeDelay n :: (retryRequestAux attempts (n + 1)).2) := by
  conv_lhs => rw [retryRequestAux.eq_def]
  rw [he]
  simp [hr]

theorem shouldRetry_of_ge500 (e : InterceptedError) (n : Nat)
    (hs : statusGe500 e.responseStatus = true) (hn : n < 3) :
    shouldRetry e n = true := by
  simp [shouldRetry, hs, RATE_LIMIT_CONFIG]
  omega

theorem shouldRetry_stop_at_max (e : InterceptedError) :
    shouldRetry e 3 = false := by
  simp [shouldRetry, RATE_LIMIT_CONFIG]

/-! ## Claim theorems about the retry controller -/

/-- Claim C5: a task whose `requestFn` fails with a server error
(status ≥ 500) on every attempt is attempted exactly `1 + maxRetries = 4`
times, and the error of the last attempt is then propagated to the caller
unchanged; no further attempt is made. -/
theorem retry_exhaustion_four_attempts {α : Type}
    (attempts : Nat → Except InterceptedError α) (errs : Nat → InterceptedError)
    (hall : ∀ n, attempts n = Except.error (errs n))
    (hsrv : ∀ n, statusGe500 (errs n).responseStatus = true) :
    retryRequest attempts = Except.error (errs 3)
    ∧ retryAttemptCount attempts = 4 := by
  have hmain : retryRequestAux attempts 0 =
      (Except.error (errs 3), [computeDelay 0, computeDelay 1, computeDelay 2]) := by
    rw [retry_step_retry attempts 0 (errs 0) (hall 0) (shouldRetry_of_ge500 _ _ (hsrv 0) (by omega)),
      retry_step_retry attempts 1 (errs 1) (hall 1) (shouldRetry_of_ge500 _ _ (hsrv 1) (by omega)),
      retry_step_retry attempts 2 (errs 2) (hall 2) (shouldRetry_of_ge500 _ _ (hsrv 2) (by omega)),
      retry_step_stop attempts 3 (errs 3) (hall 3) (shouldRetry_stop_at_max _)]
  exact ⟨by simp [retryRequest, hmain], by simp [retryAttemptCount, hmain]⟩

/-- Witness for C5: a request failing with HTTP 500 on every attempt is
attempted four times and its last error propagates. -/
theorem retry_exhaustion_four_attempts_witness :
    retryRequest (fun _ => (Except.error ⟨some 500, false, none⟩ : Except InterceptedError Nat)) =
      Except.error ⟨some 500, false, none⟩
    ∧ retryAttemptCount
        (fun _ => (Except.error ⟨some 500, false, none⟩ : Except InterceptedError Nat)) = 4 :=
  retry_exhaustion_four_attempts _ (fun _ => ⟨some 500, false, none⟩)
    (fun _ => rfl) (fun _ => rfl)

/-- Claim C6: a task failing with a server error on its first three attempts
and succeeding on the fourth is retried exactly `maxRetries = 3` times, the
n-th retry waiting `computeDelay n = min(baseDelay * multiplier ^ n, maxDelay)`
milliseconds — concretely 1000 ms, 2000 ms, 4000 ms — and the caller
receives the success value of the final attempt. -/
theorem backoff_schedule_success {α : Type}
    (attempts : Nat → Except InterceptedError α) (errs : Nat → InterceptedError) (v : α)
    (hfail : ∀ n, n < 3 → attempts n = Except.error (errs n))
    (hsrv : ∀ n, n < 3 → statusGe500 (errs n).responseStatus = true)
    (hsucc : attempts 3 = Except.ok v) :
    retryRequest attempts = Except.ok v
    ∧ retryDelays attempts = [computeDelay 0, computeDelay 1, computeDelay 2]
    ∧ [computeDelay 0, computeDelay 1, computeDelay 2] = [1000, 2000, 4000]
    ∧ retryAttemptCount attempts = 4 := by
  have hmain : retryRequestAux attempts 0 =
      (Except.ok v, [computeDelay 0, computeDelay 1, computeDelay 2]) := by
    rw [retry_step_retry attempts 0 (errs 0) (hfail 0 (by omega))
        (shouldRetry_of_ge500 _ _ (hsrv 0 (by omega)) (by omega)),
      retry_step_retry attempts 1 (errs 1) (hfail 1 (by omega))
        (shouldRetry_of_ge500 _ _ (hsrv 1 (by omega)) (by omega)),
      retry_step_retry attempts 2 (errs 2) (hfail 2 (by omega))
        (shouldRetry_of_ge500 _ _ (hsrv 2 (by omega)) (by omega)),
      retry_step_ok attempts 3 v hsucc]
  refine ⟨by simp [retryRequest, hmain], by simp [retryDelays, hmain], by decide,
    by simp [retryAttemptCount, hmain]⟩

/-- Witness for C6: three HTTP 503 failures followed by a success yield the
success value after backoff delays 1000 ms, 2000 ms, 4000 ms. -/
theorem backoff_schedule_success_witness :
    retryRequest (fun n => if n < 3 then
        (Except.error ⟨some 503, false, none⟩ : Except InterceptedError Nat)
      else Except.ok 7) = Except.ok 7
    ∧ retryDelays (fun n => if n < 3 then
        (Except.error ⟨some 503, false, none⟩ : Except InterceptedError Nat)
      else Except.ok 7) = [1000, 2000, 4000] := by
  have h := backoff_schedule_success
    (fun n => if n < 3 then
        (Except.error ⟨some 503, false, none⟩ : Except InterceptedError Nat)
      else Except.ok 7)
    (fun _ => ⟨some 503, false, none⟩) 7
    (fun n hn => by simp [hn]) (fun _ _ => rfl) (by rfl)
  exact ⟨h.1, by rw [h.2.1, h.2.2.1]⟩

/-- Claim C1 (code-bug evaluation): a transport failure with HTTP 429 and
`Retry-After: 2` is rewrapped by the response interceptor into an `Error`
with `isRateLimited = true` and `retryAfter = 2000` but with no `response`
field; `retryRequest` therefore sees neither a 429 nor a ≥ 500 status,
makes exactly one attempt, sleeps through no delay, and propagates the
wrapped error — it neither retries nor honors the 2000 ms wait.  Moreover,
even an error still carrying `response.status = 429` would be retried with
the exponential delays 1000, 2000, 4000 ms (the first wait being 1000 ms,
not `retryAfterSeconds * 1000 = 2000` ms), because `retryRequest` never
reads the `retryAfter` field. -/
theorem rateLimited_never_retried_eval :
    responseInterceptor ⟨some 429, some 2⟩ = ⟨none, true, some 2000⟩
    ∧ retryAttemptCount (fun _ => (Except.error (responseInterceptor ⟨some 429, some 2⟩) :
        Except InterceptedError Nat)) = 1
    ∧ retryDelays (fun _ => (Except.error (responseInterceptor ⟨some 429, some 2⟩) :
        Except InterceptedError Nat)) = []
    ∧ retryRequest (fun _ => (Except.error (responseInterceptor ⟨some 429, some 2⟩) :
        Except InterceptedError Nat)) = Except.error ⟨none, true, some 2000⟩
    ∧ retryDelays (fun _ => (Except.error ⟨some 429, false, some 2000⟩ :
        Except InterceptedError Nat)) = [1000, 2000, 4000] := by
  have hw : responseInterceptor ⟨some 429, some 2⟩ = ⟨none, true, some 2000⟩ := by decide
  have hstop : retryRequestAux (fun _ => (Except.error (responseInterceptor ⟨some 429, some 2⟩) :
      Except InterceptedError Nat)) 0 = (Except.error ⟨none, true, some 2000⟩, []) := by
    rw [retry_step_stop _ 0 _ (congrArg Except.error hw) (by decide)]
  have hexp : retryRequestAux (fun _ => (Except.error ⟨some 429, false, some 2000⟩ :
      Except InterceptedError Nat)) 0 =
      (Except.error ⟨some 429, false, some 2000⟩,
        [computeDelay 0, computeDelay 1, computeDelay 2]) := by
    rw [retry_step_retry _ 0 _ rfl (by decide), retry_step_retry _ 1 _ rfl (by decide),
      retry_step_retry _ 2 _ rfl (by decide), retry_step_stop _ 3 _ rfl (by decide)]
  refine ⟨hw, by simp [retryAttemptCount, hstop], by simp [retryDelays, hstop],
    by simp [retryRequest, hstop], by rw [retryDelays, hexp]; decide⟩

/-- Claim C2 (counterexample): a failure with no HTTP response at all
(`error.response` absent, as for a connection failure or the 30 s transport
timeout) is not retried: `shouldRetry` is already false at attempt count 0,
a single attempt is made and no backoff delay occurs — contradicting the
claim that such failures are retried like server errors while the attempt
count is below `maxRetries = 3`. -/
theorem networkError_not_retried_cex :
    shouldRetry ⟨none, false, none⟩ 0 = false
    ∧ retryAttemptCount
        (fun _ => (Except.error ⟨none, false, none⟩ : Except InterceptedError Nat)) = 1
    ∧ retryDelays
        (fun _ => (Except.error ⟨none, false, none⟩ : Except InterceptedError Nat)) = []
    ∧ RATE_LIMIT_CONFIG.maxRetries = 3 := by
  have hstop : retryRequestAux
      (fun _ => (Except.error ⟨none, false, none⟩ : Except InterceptedError Nat)) 0 =
      (Except.error ⟨none, false, none⟩, []) :=
    retry_step_stop _ 0 _ rfl (by decide)
  exact ⟨by decide, by simp [retryAttemptCount, hstop], by simp [retryDelays, hstop], rfl⟩

/-- Claim C2 (amended): an execution that fails with no HTTP response is
never retried — the retry predicate requires a response status of 429 or
≥ 500, which an absent response cannot satisfy — so the error is propagated
to the caller after exactly one attempt; the transport is configured with
the fixed 30 s timeout (`requestTimeout = 30000`). -/
theorem networkError_propagates_immediately {α : Type}
    (attempts : Nat → Except InterceptedError α) (e : InterceptedError)
    (hnone : e.responseStatus = none) (h0 : attempts 0 = Except.error e) :
    (∀ n, shouldRetry e n = false)
    ∧ retryRequest attempts = Except.error e
    ∧ retryAttemptCount attempts = 1
    ∧ RATE_LIMIT_CONFIG.requestTimeout = 30000 := by
  have hsr : ∀ n, shouldRetry e n = false := by
    intro n
    simp [shouldRetry, statusIs429, statusGe500, hnone]
  have hstop := retry_step_stop attempts 0 e h0 (hsr 0)
  exact ⟨hsr, by simp [retryRequest, hstop], by simp [retryAttemptCount, hstop], rfl⟩

/-- Witness for the amended C2: a concrete connectionless failure is
propagated after a single attempt with no retries. -/
theorem networkError_propagates_immediately_witness :
    retryRequest (fun _ => (Except.error ⟨none, true, some 1000⟩ :
        Except InterceptedError Nat)) = Except.error ⟨none, true, some 1000⟩
    ∧ retryAttemptCount (fun _ => (Except.error ⟨none, true, some 1000⟩ :
        Except InterceptedError Nat)) = 1
    ∧ shouldRetry ⟨none, true, some 1000⟩ 0 = false := by
  have h := networkError_propagates_immediately
    (fun _ => (Except.error ⟨none, true, some 1000⟩ : Except InterceptedError Nat))
    ⟨none, true, some 1000⟩ rfl rfl
  exact ⟨h.2.1, h.2.2.1, h.1 0⟩

/-- Claim C7: on an HTTP 401, the legacy response interceptor clears both
credential-store keys and performs the redirect to the login entry point
exactly once, rejecting the original error unchanged; the enhanced
interceptor passes a 401 through with its status intact, and `retryRequest`
never retries a 401 — the task is attempted exactly once and the failure
reaches the caller immediately. -/
theorem unauthenticated_clears_and_redirects_once {α : Type}
    (st : BrowserState) (e : RawAxiosError) (he : e.status = some 401)
    (attempts : Nat → Except InterceptedError α) (e1 : InterceptedError)
    (h0 : attempts 0 = Except.error e1) (h401 : e1.responseStatus = some 401) :
    (legacyResponseInterceptor st e).1.token = none
    ∧ (legacyResponseInterceptor st e).1.user = none
    ∧ (legacyResponseInterceptor st e).1.redirects = st.redirects ++ ["/login"]
    ∧ (legacyResponseInterceptor st e).2 = e
    ∧ responseInterceptor e = ⟨some 401, false, none⟩
    ∧ (∀ n, shouldRetry e1 n = false)
    ∧ retryAttemptCount attempts = 1
    ∧ retryRequest attempts = Except.error e1 := by
  have hsr : ∀ n, shouldRetry e1 n = false := by
    intro n
    simp [shouldRetry, statusIs429, statusGe500, h401]
  have hstop := retry_step_stop attempts 0 e1 h0 (hsr 0)
  refine ⟨?_, ?_, ?_, ?_, ?_, hsr, by simp [retryAttemptCount, hstop],
    by simp [retryRequest, hstop]⟩
  · simp [legacyResponseInterceptor, he]
  · simp [legacyResponseInterceptor, he]
  · simp [legacyResponseInterceptor, he]
  · simp [legacyResponseInterceptor, he]
  · simp [responseInterceptor, he]

/-- Witness for C7: a concrete 401 clears the stored token, redirects once,
and the request is attempted exactly once. -/
theorem unauthenticated_clears_and_redirects_once_witness :
    (legacyResponseInterceptor ⟨some "tok", some "u", []⟩ ⟨some 401, none⟩).1.token = none
    ∧ (legacyResponseInterceptor ⟨some "tok", some "u", []⟩
        ⟨some 401, none⟩).1.redirects = ["/login"]
    ∧ retryAttemptCount (fun _ => (Except.error ⟨some 401, false, none⟩ :
        Except InterceptedError Nat)) = 1
    ∧ retryRequest (fun _ => (Except.error ⟨some 401, false, none⟩ :
        Except InterceptedError Nat)) = Except.error ⟨some 401, false, none⟩ := by
  have h := unauthenticated_clears_and_redirects_once ⟨some "tok", some "u", []⟩
    ⟨some 401, none⟩ rfl
    (fun _ => (Except.error ⟨some 401, false, none⟩ : Except InterceptedError Nat))
    ⟨some 401, false, none⟩ rfl rfl
  exact ⟨h.1, h.2.2.1, h.2.2.2.2.2.2.1, h.2.2.2.2.2.2.2⟩

/-! ## The scheduler invariant -/

theorem removeTask_length {l : List Task} {id : Nat} {t : Task}
    (h : findTask l id = some t) : (removeTask l id).length + 1 = l.length := by
  induction l with
  | nil => simp [findTask] at h
  | cons a as ih =>
    by_cases ha : a.id = id
    · simp [removeTask, ha]
    · rw [findTask, if_neg ha] at h
      rw [removeTask, if_neg ha]
      simp [ih h]

theorem inv_processQueue (s : SchedState)
    (ha : s.active.length ≤ RATE_LIMIT_CONFIG.maxConcurrentRequests)
    (hb : s.started.length = s.active.length + s.completed.length)
    (hc : 2 ≤ s.queue.length → 4 ≤ s.active.length)
    (hd : s.started ++ s.queue.map Task.id = s.enqueued) :
    Inv (processQueue s) := by
  unfold processQueue
  split
  next hg =>
    obtain ⟨hg1, hg2⟩ := hg
    cases hq : s.queue with
    | nil => rw [hq] at hg2; simp at hg2
    | cons q qs =>
      simp only [startNext, hq]
      rw [hq] at hd
      refine ⟨?_, ?_, ?_, ?_⟩
      · simp only [List.length_append, List.length_cons, List.length_nil]
        simp [RATE_LIMIT_CONFIG] at hg1 ⊢
        omega
      · simp only [List.length_append, List.length_cons, List.length_nil]
        omega
      · intro hne
        have hne2 : qs ≠ [] := hne
        have h2q : 2 ≤ s.queue.length := by
          rw [hq]
          have := List.length_pos.mpr hne2
          simp
          omega
        have h4 := hc h2q
        simp only [List.length_append, List.length_cons, List.length_nil]
        simp [RATE_LIMIT_CONFIG] at hg1 ⊢
        omega
      · simp only [List.map_cons] at hd
        simpa [List.append_assoc] using hd
  next hg =>
    refine ⟨ha, hb, ?_, hd⟩
    intro hne
    have hlen : 0 < s.queue.length := List.length_pos.mpr hne
    have hfull : ¬ s.active.length < RATE_LIMIT_CONFIG.maxConcurrentRequests :=
      fun hlt => hg ⟨hlt, hlen⟩
    omega

theorem inv_enqueue (s : SchedState) (t : Task) (h : Inv s) : Inv (enqueue s t) := by
  obtain ⟨h1, h2, h3, h4⟩ := h
  unfold enqueue
  apply inv_processQueue
  · exact h1
  · exact h2
  · intro h2q
    show 4 ≤ s.active.length
    have h2q2 : 2 ≤ (s.queue ++ [t]).length := h2q
    simp only [List.length_append, List.length_cons, List.length_nil] at h2q2
    have hne : s.queue ≠ [] := by
      intro he
      rw [he] at h2q2
      simp at h2q2
    have h5 := h3 hne
    simp [RATE_LIMIT_CONFIG] at h5
    omega
  · show s.started ++ (s.queue ++ [t]).map Task.id = s.enqueued ++ [t.id]
    rw [List.map_append, ← List.append_assoc, h4]
    rfl

theorem inv_add (s : SchedState) (t : Task) (h : Inv s) : Inv ((add s t).1) := by
  cases hck : t.cacheKey with
  | none =>
    simp only [add, hck]
    exact inv_enqueue s t h
  | some k =>
    cases hcg : cacheGet s.cache k with
    | none =>
      simp only [add, hck, hcg]
      exact inv_enqueue s t h
    | some cached =>
      by_cases hfr : s.now - cached.timestamp < cached.ttl
      · simp only [add, hck, hcg, if_pos hfr]
        exact h
      · simp only [add, hck, hcg, if_neg hfr]
        exact inv_enqueue s t h

theorem inv_completeTask (s : SchedState) (id : Nat) (success : Bool) (h : Inv s) :
    Inv (completeTask s id success) := by
  obtain ⟨h1, h2, h3, h4⟩ := h
  unfold completeTask
  cases hf : findTask s.active id with
  | none => exact ⟨h1, h2, h3, h4⟩
  | some t =>
    have hlen := removeTask_length hf
    apply inv_processQueue
    · show (removeTask s.active id).length ≤ _
      omega
    · show s.started.length = (removeTask s.active id).length + (s.completed ++ [id]).length
      simp only [List.length_append, List.length_cons, List.length_nil]
      omega
    · intro h2q
      show 4 ≤ (removeTask s.active id).length
      have hne : s.queue ≠ [] := by
        intro he
        rw [he] at h2q
        simp at h2q
      have h5 := h3 hne
      simp [RATE_LIMIT_CONFIG] at h5
      omega
    · exact h4

theorem inv_stepEvent (s : SchedState) (e : Event) (h : Inv s) : Inv (stepEvent s e) := by
  cases e with
  | submit t => exact inv_add s t h
  | complete id success => exact inv_completeTask s id success h
  | tick d => exact h
  | clearCache => exact h

theorem inv_foldl (evs : List Event) (s : SchedState) (h : Inv s) :
    Inv (evs.foldl stepEvent s) := by
  induction evs generalizing s with
  | nil => exact h
  | cons e rest ih => exact ih _ (inv_stepEvent s e h)

theorem inv_initState : Inv initState := by
  refine ⟨?_, rfl, ?_, rfl⟩ <;> simp [initState, Inv, RATE_LIMIT_CONFIG]

theorem inv_run (evs : List Event) : Inv (run evs) :=
  inv_foldl evs initState inv_initState

/-! ## Projection lemmas and the drain-loop equivalence -/

theorem startNext_enqueued (s : SchedState) : (startNext s).enqueued = s.enqueued := by
  cases hq : s.queue <;> simp [startNext, hq]

theorem startNext_cache (s : SchedState) : (startNext s).cache = s.cache := by
  cases hq : s.queue <;> simp [startNext, hq]

theorem processQueue_enqueued (s : SchedState) : (processQueue s).enqueued = s.enqueued := by
  unfold processQueue
  split <;> simp [startNext_enqueued]

theorem processQueue_cache (s : SchedState) : (processQueue s).cache = s.cache := by
  unfold processQueue
  split <;> simp [startNext_cache]

theorem processQueueLoop_stop (s : SchedState)
    (hg : ¬(s.active.length < RATE_LIMIT_CONFIG.maxConcurrentRequests
      ∧ s.queue.length > 0)) :
    processQueueLoop s = s := by
  rw [processQueueLoop.eq_def, dif_neg hg]

theorem processQueueLoop_eq (s : SchedState)
    (hstop : ¬((processQueue s).active.length < RATE_LIMIT_CONFIG.maxConcurrentRequests
      ∧ (processQueue s).queue.length > 0)) :
    processQueueLoop s = processQueue s := by
  by_cases hg : s.active.length < RATE_LIMIT_CONFIG.maxConcurrentRequests
      ∧ s.queue.length > 0
  · rw [processQueueLoop.eq_def, dif_pos hg]
    unfold processQueue at hstop ⊢
    rw [if_pos hg] at hstop ⊢
    exact processQueueLoop_stop _ hstop
  · rw [processQueueLoop.eq_def, dif_neg hg]
    unfold processQueue
    rw [if_neg hg]

theorem stop_of_inv (r : SchedState) (h : Inv r) :
    ¬(r.active.length < RATE_LIMIT_CONFIG.maxConcurrentRequests ∧ r.queue.length > 0) := by
  rintro ⟨hlt, hpos⟩
  have hne : r.queue ≠ [] := by
    intro he
    rw [he] at hpos
    simp at hpos
  have := h.2.2.1 hne
  omega

theorem enqueueLoop_eq (s : SchedState) (t : Task) (h : Inv s) :
    enqueueLoop s t = enqueue s t := by
  unfold enqueueLoop enqueue
  exact processQueueLoop_eq _ (stop_of_inv _ (inv_enqueue s t h))

theorem addLoop_eq (s : SchedState) (t : Task) (h : Inv s) : addLoop s t = add s t := by
  cases hck : t.cacheKey with
  | none =>
    simp only [addLoop, add, hck]
    rw [enqueueLoop_eq s t h]
  | some k =>
    cases hcg : cacheGet s.cache k with
    | none =>
      simp only [addLoop, add, hck, hcg]
      rw [enqueueLoop_eq s t h]
    | some cached =>
      by_cases hfr : s.now - cached.timestamp < cached.ttl
      · simp only [addLoop, add, hck, hcg, if_pos hfr]
      · simp only [addLoop, add, hck, hcg, if_neg hfr]
        rw [enqueueLoop_eq s t h]

theorem completeTaskLoop_eq (s : SchedState) (id : Nat) (success : Bool) (h : Inv s) :
    completeTaskLoop s id success = completeTask s id success := by
  have hinv := inv_completeTask s id success h
  unfold completeTaskLoop completeTask
  cases hf : findTask s.active id with
  | none => rfl
  | some t =>
    apply processQueueLoop_eq
    apply stop_of_inv
    simp only [completeTask, hf] at hinv
    exact hinv

theorem stepEventLoop_eq (s : SchedState) (e : Event) (h : Inv s) :
    stepEventLoop s e = stepEvent s e := by
  cases e with
  | submit t =>
    simp only [stepEventLoop, stepEvent]
    rw [addLoop_eq s t h]
  | complete id success => exact completeTaskLoop_eq s id success h
  | tick d => rfl
  | clearCache => rfl

theorem foldl_loop_eq (evs : List Event) (s : SchedState) (h : Inv s) :
    evs.foldl stepEventLoop s = evs.foldl stepEvent s := by
  induction evs generalizing s with
  | nil => rfl
  | cons e rest ih =>
    simp only [List.foldl_cons]
    rw [stepEventLoop_eq s e h]
    exact ih _ (inv_stepEvent s e h)

/-! ## Claim theorems about the scheduler -/

/-- Claim C3: in every reachable scheduler state the active-request counter
satisfies `0 ≤ activeCount ≤ maxConcurrentRequests = 5`, and it equals the
number of task starts minus the number of task completions — the counter is
incremented exactly once when a dequeued task starts and decremented exactly
once when that task settles, and nothing else (in particular no retry, which
happens entirely inside `retryRequest`) touches it. -/
theorem activeCount_bounded_and_balanced (evs : List Event) :
    0 ≤ (run evs).active.length
    ∧ (run evs).active.length ≤ RATE_LIMIT_CONFIG.maxConcurrentRequests
    ∧ (run evs).started.length = (run evs).active.length + (run evs).completed.length :=
  ⟨Nat.zero_le _, (inv_run evs).1, (inv_run evs).2.1⟩

/-- Claim C8: backlog admission is FIFO — in every reachable state the log
of started tasks extended by the current backlog is exactly the submission
(enqueue) order, so the start order is a prefix of the submission order: if
A was pushed before B, A starts before B.  Completion order is
unconstrained (completions are separate events). -/
theorem fifo_admission_order (evs : List Event) :
    (run evs).started ++ ((run evs).queue.map Task.id) = (run evs).enqueued
    ∧ ∃ pending, (run evs).enqueued = (run evs).started ++ pending :=
  ⟨(inv_run evs).2.2.2, ⟨(run evs).queue.map Task.id, ((inv_run evs).2.2.2).symm⟩⟩

/-- Claim C10: in every reachable scheduler state a non-empty backlog
implies `activeCount = maxConcurrentRequests`, and consequently the
single-pop `processQueue` drain — invoked once per enqueue and once per
completion — produces exactly the same runs as the while-style drain loop
that pops as long as a slot is free and the backlog is non-empty. -/
theorem backlog_implies_full_and_drain_equiv (evs : List Event) :
    ((run evs).queue ≠ [] →
      (run evs).active.length = RATE_LIMIT_CONFIG.maxConcurrentRequests)
    ∧ runLoop evs = run evs :=
  ⟨(inv_run evs).2.2.1, foldl_loop_eq evs initState inv_initState⟩

/-- Witness for C10: after six submissions with no cache keys, one task is
backlogged and all five slots are occupied. -/
theorem backlog_implies_full_and_drain_equiv_witness :
    (run [Event.submit ⟨1, none, 300000, 0⟩, Event.submit ⟨2, none, 300000, 0⟩,
      Event.submit ⟨3, none, 300000, 0⟩, Event.submit ⟨4, none, 300000, 0⟩,
      Event.submit ⟨5, none, 300000, 0⟩, Event.submit ⟨6, none, 300000, 0⟩]).queue ≠ []
    ∧ (run [Event.submit ⟨1, none, 300000, 0⟩, Event.submit ⟨2, none, 300000, 0⟩,
      Event.submit ⟨3, none, 300000, 0⟩, Event.submit ⟨4, none, 300000, 0⟩,
      Event.submit ⟨5, none, 300000, 0⟩, Event.submit ⟨6, none, 300000, 0⟩]).active.length =
        RATE_LIMIT_CONFIG.maxConcurrentRequests :=
  ⟨by decide, (backlog_implies_full_and_drain_equiv _).1 (by decide)⟩

/-- Claim C4: for a submission carrying a cache key, the lookup hits exactly
when an entry exists for the key and `now - storedAt < ttl`; on a hit the
scheduler state is unchanged (no concurrency slot is consumed, nothing is
enqueued, `execute` is not invoked) and the cached value is returned; on a
miss — including an expired entry — the task is enqueued for execution.
Concretely, submitting the same key twice within its TTL starts `execute`
exactly once, while resubmitting after the TTL has elapsed starts it
again. -/
theorem cache_hit_iff_fresh (s : SchedState) (t : Task) (k : String)
    (hk : t.cacheKey = some k) :
    ((add s t).2 ≠ none ↔
      ∃ e, cacheGet s.cache k = some e ∧ s.now - e.timestamp < e.ttl)
    ∧ (∀ e, cacheGet s.cache k = some e → s.now - e.timestamp < e.ttl →
        (add s t).1 = s ∧ (add s t).2 = some e.data)
    ∧ ((add s t).2 = none → (add s t).1.enqueued = s.enqueued ++ [t.id])
    ∧ (run [Event.submit ⟨1, some "k", 300000, 42⟩, Event.complete 1 true,
        Event.tick 299999, Event.submit ⟨2, some "k", 300000, 43⟩]).started = [1]
    ∧ (run [Event.submit ⟨1, some "k", 300000, 42⟩, Event.complete 1 true,
        Event.tick 300000, Event.submit ⟨2, some "k", 300000, 43⟩]).started = [1, 2] := by
  refine ⟨?_, ?_, ?_, by decide, by decide⟩
  · cases hcg : cacheGet s.cache k with
    | none => simp [add, hk, hcg]
    | some cached =>
      by_cases hfr : s.now - cached.timestamp < cached.ttl
      · simp only [add, hk, hcg, if_pos hfr]
        simp
        exact hfr
      · simp only [add, hk, hcg, if_neg hfr]
        simp
        omega
  · intro e he hfr
    simp [add, hk, he, if_pos hfr]
  · intro hnone
    cases hcg : cacheGet s.cache k with
    | none => simp [add, hk, hcg, enqueue, processQueue_enqueued]
    | some cached =>
      by_cases hfr : s.now - cached.timestamp < cached.ttl
      · rw [add, hk] at hnone
        simp [hcg, if_pos hfr] at hnone
      · simp [add, hk, hcg, if_neg hfr, enqueue, processQueue_enqueued]

/-- Witness for C4: with a fresh entry stored for key k, a submission for k
resolves immediately with the cached value and leaves the state unchanged. -/
theorem cache_hit_iff_fresh_witness :
    (add { initState with cache := [("k", ⟨42, 0, 300000⟩)], now := 10 }
        ⟨7, some "k", 300000, 0⟩).1 =
      { initState with cache := [("k", ⟨42, 0, 300000⟩)], now := 10 }
    ∧ (add { initState with cache := [("k", ⟨42, 0, 300000⟩)], now := 10 }
        ⟨7, some "k", 300000, 0⟩).2 = some 42 :=
  (cache_hit_iff_fresh { initState with cache := [("k", ⟨42, 0, 300000⟩)], now := 10 }
    ⟨7, some "k", 300000, 0⟩ "k" rfl).2.1 ⟨42, 0, 300000⟩ rfl (by decide)

/-- Claim C9: every mutating API call runs `clearCache()` synchronously
before submitting its request (which carries no cache key), so immediately
after the submission — while the mutation is still in flight — the cache is
empty and any subsequent submission of a previously cached key misses and
is enqueued for re-execution. -/
theorem eager_cache_invalidation (s : SchedState) (t t1 : Task) (k : String)
    (ht : t.cacheKey = none) (hk : t1.cacheKey = some k) :
    (mutatingCall s t).1.cache = []
    ∧ (add (mutatingCall s t).1 t1).2 = none
    ∧ (add (mutatingCall s t).1 t1).1.enqueued = (mutatingCall s t).1.enqueued ++ [t1.id] := by
  have hc : (mutatingCall s t).1.cache = [] := by
    simp [mutatingCall, add, ht, enqueue, clearCache, processQueue_cache]
  have hget : cacheGet (mutatingCall s t).1.cache k = none := by
    rw [hc]
    rfl
  refine ⟨hc, ?_, ?_⟩
  · simp [add, hk, hget]
  · simp [add, hk, hget, enqueue, processQueue_enqueued]

/-- Witness for C9: a concrete mutation submitted over a warm cache leaves
the cache empty, and the next read with the previously cached key misses
and is enqueued. -/
theorem eager_cache_invalidation_witness :
    (mutatingCall { initState with cache := [("x", ⟨1, 0, 300000⟩)] }
        ⟨1, none, 300000, 0⟩).1.cache = []
    ∧ (add (mutatingCall { initState with cache := [("x", ⟨1, 0, 300000⟩)] }
        ⟨1, none, 300000, 0⟩).1 ⟨2, some "x", 300000, 0⟩).2 = none
    ∧ (add (mutatingCall { initState with cache := [("x", ⟨1, 0, 300000⟩)] }
        ⟨1, none, 300000, 0⟩).1 ⟨2, some "x", 300000, 0⟩).1.enqueued =
      (mutatingCall { initState with cache := [("x", ⟨1, 0, 300000⟩)] }
        ⟨1, none, 300000, 0⟩).1.enqueued ++ [2] :=
  eager_cache_invalidation { initState with cache := [("x", ⟨1, 0, 300000⟩)] }
    ⟨1, none, 300000, 0⟩ ⟨2, some "x", 300000, 0⟩ "x" rfl rfl

end ApiService
